import Mathlib

/-!
# Verification of the TrazaNet batch-compliance core

Shallow embedding of the TrazaNet MVP decision logic:

* `AvocadoTraceContract` (Solidity, `src/unnamed/part_000`): threshold
  registry, batch lifecycle, and the `evaluateBatch` audit engine.
  Machine integers (`uint256`) are embedded as `Nat`; the audited
  quantities are tiny, so no wrap-around arithmetic arises, and Solidity
  integer division is `Nat` division.  The Solidity source guards
  registration and updates on `batches[loteId].timestamp`; the only
  timestamp in `BatchData` lives inside its `audit` field, so that guard
  is embedded as the audit timestamp (registration initialises it to the
  non-zero block timestamp).  `require` failures are embedded as
  `Except.error` carrying the revert string; mapping lookup of an absent
  key yields the all-zero struct, embedded as a total function with
  default `zeroBatch`.
* the CSV quality classifier of `src/server.js` (`/api/upload`), with
  JavaScript `Number` percentages and `toFixed` rounding embedded as
  exact rationals with round-half-up at the stated number of decimals;
* the dashboard aggregator `processData` / `determineBatchStatus` of
  `src/Recursos/js/aiAnalysis.js`, with the es-ES day/month label of
  `toLocaleDateString` embedded as an explicit day/month key, record
  dates as calendar triples, and the stable JavaScript sort as insertion
  sort on the date serial.
-/

namespace Trazanet

/-- Audit verdict stored on a batch (`struct AuditResult`). -/
structure AuditResult where
  isCompliant : Bool
  reason : String
  timestamp : Nat
  deriving Repr, DecidableEq

/-- Per-lot data (`struct BatchData`); addresses are embedded as strings. -/
structure BatchData where
  loteId : String
  variety : String
  registeredBy : String
  initialWeight : Nat
  finalWeightReceived : Nat
  avgTemperature : Nat
  audit : AuditResult
  deriving Repr, DecidableEq

/-- Default value of a Solidity mapping entry: the all-zero struct. -/
def zeroBatch : BatchData :=
  { loteId := "", variety := "", registeredBy := "", initialWeight := 0,
    finalWeightReceived := 0, avgTemperature := 0,
    audit := { isCompliant := false, reason := "", timestamp := 0 } }

/-- Contract storage: owner, the three thresholds, and the batches mapping. -/
structure ContractState where
  owner : String
  maxTempTransportC : Nat
  maxWeightDeviationPct : Nat
  minDryMatterPct : Nat
  batches : String → BatchData

/-- The constructor: sets the owner and the three initial thresholds. -/
def deployContract (sender : String)
    (initialMaxTemp initialMaxWeightDev initialMinDryMatter : Nat) :
    ContractState :=
  { owner := sender
    maxTempTransportC := initialMaxTemp
    maxWeightDeviationPct := initialMaxWeightDev
    minDryMatterPct := initialMinDryMatter
    batches := fun _ => zeroBatch }

/-- Write one entry of the batches mapping. -/
def setBatch (s : ContractState) (loteId : String) (b : BatchData) :
    ContractState :=
  { s with batches := fun id => if id = loteId then b else s.batches id }

/-- Reason string for a compliant lot. -/
def reasonConforme : String := "Lote Conforme. Cumple con todos los SC."

/-- Reason string of the temperature check (audit 1). -/
def reasonTemp : String := "FALLA: Temperatura promedio excedida. Umbral MAX: "

/-- Reason string of the weight-deviation check (audit 2). -/
def reasonWeight : String :=
  "FALLA: Desviación de peso entre etapas excedida. Lote rechazado."

/-- Reason string of the dry-matter check (audit 3). -/
def reasonDryMatter : String :=
  "FALLA: Materia seca final insuficiente. No apto para exportación."

/-- Pure core of `evaluateBatch`: given the three thresholds, the stored
batch and the three (possibly zero = unset) explicit inputs, produce the
compliance flag and reason.  Mirrors the three sequential audits of the
source: the weight and dry-matter checks only overwrite the verdict when
`compliant` is still true, so the first failing check wins. -/
def runAudit (maxTemp maxWeightDev minDryMatter : Nat) (batch : BatchData)
    (avgTemperatureCInput finalWeightReceivedInput finalDryMatterPctInput : Nat) :
    Bool × String :=
  let avgTemp := if avgTemperatureCInput ≠ 0 then avgTemperatureCInput
                 else batch.avgTemperature
  let initialWeight := batch.initialWeight
  let finalWeight := if finalWeightReceivedInput ≠ 0 then finalWeightReceivedInput
                     else batch.finalWeightReceived
  let step1 : Bool × String :=
    if avgTemp > maxTemp then (false, reasonTemp) else (true, reasonConforme)
  let step2 : Bool × String :=
    if initialWeight > 0 ∧ finalWeight > 0 then
      let difference := if initialWeight > finalWeight
                        then initialWeight - finalWeight
                        else finalWeight - initialWeight
      let weightDeviation := difference * 100 * 100 / initialWeight
      if step1.1 = true ∧ weightDeviation > maxWeightDev * 100 then
        (false, reasonWeight)
      else step1
    else step1
  if step2.1 = true ∧ finalDryMatterPctInput > 0 ∧
      finalDryMatterPctInput < minDryMatter then
    (false, reasonDryMatter)
  else step2

/-- `evaluateBatch`: runs the audit against the stored thresholds and
replaces the stored `audit` wholesale.  The source has no `require`, so
the embedding is a total state transformer. -/
def evaluateBatch (s : ContractState) (loteId : String)
    (avgTemperatureCInput finalWeightReceivedInput finalDryMatterPctInput
     now : Nat) : ContractState :=
  let batch := s.batches loteId
  let res := runAudit s.maxTempTransportC s.maxWeightDeviationPct
    s.minDryMatterPct batch avgTemperatureCInput finalWeightReceivedInput
    finalDryMatterPctInput
  setBatch s loteId
    { batch with audit := { isCompliant := res.1, reason := res.2, timestamp := now } }

/-- `registerBatchInitialData`: rejects a lot whose stored timestamp is
already non-zero, otherwise writes the fresh batch with a pending audit
stamped at the block timestamp. -/
def registerBatchInitialData (s : ContractState) (sender loteId variety : String)
    (initialWeight now : Nat) : Except String ContractState :=
  if (s.batches loteId).audit.timestamp = 0 then
    Except.ok (setBatch s loteId
      { loteId := loteId, variety := variety, registeredBy := sender,
        initialWeight := initialWeight, finalWeightReceived := 0,
        avgTemperature := 0,
        audit := { isCompliant := false, reason := "Pendiente de Auditoria",
                   timestamp := now } })
  else Except.error "Lote ya registrado."

/-- `updateTransportData`: stores the average temperature; the source
deliberately does not run the audit here (its comment defers the audit to
a later `evaluateBatch` call). -/
def updateTransportData (s : ContractState) (loteId : String)
    (avgTemperature : Nat) : Except String ContractState :=
  if (s.batches loteId).audit.timestamp ≠ 0 then
    Except.ok (setBatch s loteId
      { s.batches loteId with avgTemperature := avgTemperature })
  else Except.error "Lote no encontrado."

/-- `updateReceptionData`: stores the final weight and immediately runs
`evaluateBatch loteId 0 finalWeightReceived 0`. -/
def updateReceptionData (s : ContractState) (loteId : String)
    (finalWeightReceived now : Nat) : Except String ContractState :=
  if (s.batches loteId).audit.timestamp ≠ 0 then
    let s1 := setBatch s loteId
      { s.batches loteId with finalWeightReceived := finalWeightReceived }
    Except.ok (evaluateBatch s1 loteId 0 finalWeightReceived 0 now)
  else Except.error "Lote no encontrado."

/-! ## Quality classifier (`src/server.js`, `/api/upload`) -/

/-- The three per-unit quality categories of the upload classifier. -/
inductive FruitCategory
  | conforme
  | hallazgoMenor
  | noAdmitida
  deriving Repr, DecidableEq

/-- JavaScript `toUpperCase` restricted to its ASCII action, embedded as
a character map (the classifier only compares against ASCII words). -/
def jsToUpper (s : String) : String := ⟨s.data.map Char.toUpper⟩

/-- Whitespace removed by JavaScript `trim`. -/
def isJsSpace (c : Char) : Bool :=
  c = ' ' || c = '\t' || c = '\n' || c = '\r'

/-- JavaScript `trim`: strip leading and trailing whitespace. -/
def jsTrim (s : String) : String :=
  ⟨((s.data.dropWhile isJsSpace).reverse.dropWhile isJsSpace).reverse⟩

/-- Per-unit classification of `server.js` lines 193-206: the status cell
is trimmed and upper-cased, then matched against the recognised words;
anything unrecognised counts as conformant. -/
def classifyStatus (status : String) : FruitCategory :=
  let s := jsToUpper (jsTrim status)
  if s = "OK" ∨ s = "CONFORME" then .conforme
  else if s = "ALERTA" ∨ s = "HALLAZGO" then .hallazgoMenor
  else if s = "DESCARTE" ∨ s = "NO_ADMITIDA" ∨ s = "RECHAZADO" then .noAdmitida
  else .conforme

/-- Running counters of the upload loop. -/
structure FruitCounts where
  totalFrutas : Nat
  frutasConformes : Nat
  frutasConHallazgos : Nat
  frutasNoAdmitidas : Nat
  deriving Repr, DecidableEq

/-- One iteration of the counting loop: bump the total and exactly one
category counter. -/
def countStep (acc : FruitCounts) (status : String) : FruitCounts :=
  match classifyStatus status with
  | .conforme =>
      { acc with totalFrutas := acc.totalFrutas + 1,
                 frutasConformes := acc.frutasConformes + 1 }
  | .hallazgoMenor =>
      { acc with totalFrutas := acc.totalFrutas + 1,
                 frutasConHallazgos := acc.frutasConHallazgos + 1 }
  | .noAdmitida =>
      { acc with totalFrutas := acc.totalFrutas + 1,
                 frutasNoAdmitidas := acc.frutasNoAdmitidas + 1 }

/-- Count the categories over the parseable data rows (status strings). -/
def countFruit (statuses : List String) : FruitCounts :=
  statuses.foldl countStep ⟨0, 0, 0, 0⟩

/-- The default-to-one-unit fallback of `server.js` lines 212-216: with
zero parseable rows the record becomes one synthetic conformant unit. -/
def classifyUpload (statuses : List String) : FruitCounts :=
  let c := countFruit statuses
  if c.totalFrutas = 0 then ⟨1, 1, 0, 0⟩ else c

/-- JavaScript `parseFloat(x.toFixed(2))` on a non-negative value:
round-half-up at two decimals, embedded over exact rationals. -/
def round2 (q : ℚ) : ℚ := (round (q * 100) : ℤ) / 100

/-- JavaScript `parseFloat(x.toFixed(1))` on a non-negative value:
round-half-up at one decimal, embedded over exact rationals. -/
def round1 (q : ℚ) : ℚ := (round (q * 10) : ℤ) / 10

/-- The `calidadFruta` object stored on an upload record
(`server.js` lines 272-281). -/
structure CalidadFruta where
  total : Nat
  conformes : Nat
  hallazgosMenores : Nat
  noAdmitidas : Nat
  porcentajeNoAdmitida : ℚ
  porcentajeConformes : ℚ
  porcentajeHallazgos : ℚ
  deriving Repr, DecidableEq

/-- Build the stored `calidadFruta` from the parseable status cells. -/
def mkCalidadFruta (statuses : List String) : CalidadFruta :=
  let c := classifyUpload statuses
  { total := c.totalFrutas
    conformes := c.frutasConformes
    hallazgosMenores := c.frutasConHallazgos
    noAdmitidas := c.frutasNoAdmitidas
    porcentajeNoAdmitida := round2 ((c.frutasNoAdmitidas : ℚ) / (c.totalFrutas : ℚ) * 100)
    porcentajeConformes := round2 ((c.frutasConformes : ℚ) / (c.totalFrutas : ℚ) * 100)
    porcentajeHallazgos := round2 ((c.frutasConHallazgos : ℚ) / (c.totalFrutas : ℚ) * 100) }

/-! ## History aggregator (`src/Recursos/js/aiAnalysis.js`) -/

/-- Calendar date of a history record (local calendar fields of the
stored ISO timestamp; time of day is irrelevant to the
day-level grouping and is abstracted away). -/
structure DateYMD where
  year : Nat
  month : Nat
  day : Nat
  deriving Repr, DecidableEq

/-- Numeric serial used to compare dates (month ∈ 1..12, day ∈ 1..31). -/
def DateYMD.serial (d : DateYMD) : Nat := (d.year * 13 + d.month) * 32 + d.day

/-- One record of `uploads-history.json` as the dashboard sees it; only
the fields the aggregator reads are kept.  `simResult` is carried to show
the status derivation ignores it. -/
structure HistRecord where
  date : DateYMD
  calidadFruta : Option CalidadFruta
  simResult : Option String
  deriving Repr, DecidableEq

/-- The four dashboard statuses of `determineBatchStatus`. -/
inductive BatchStatus
  | pendiente
  | descarte
  | hallazgo
  | conforme
  deriving Repr, DecidableEq

/-- `determineBatchStatus` (`aiAnalysis.js` lines 379-398): derived only
from the parsed `calidadFruta`, never from `simResult`. -/
def determineBatchStatus (record : HistRecord) : BatchStatus :=
  match record.calidadFruta with
  | none => .pendiente
  | some cf =>
      if cf.porcentajeNoAdmitida > 15 then .descarte
      else if cf.porcentajeHallazgos > 0 ∨ cf.porcentajeNoAdmitida > 0 then .hallazgo
      else .conforme

/-- Conformity percentage read off a record (`aiAnalysis.js` lines
437-440 and 468-471): the stored `porcentajeConformes`, or 0 when no
`calidadFruta` exists. -/
def conformityOf (record : HistRecord) : ℚ :=
  match record.calidadFruta with
  | some cf => cf.porcentajeConformes
  | none => 0

/-- Spanish short month names used by `toLocaleDateString` with the
es-ES locale and the numeric-day, short-month format. -/
def esMonthShort (m : Nat) : String :=
  [ "ene", "feb", "mar", "abr", "may", "jun",
    "jul", "ago", "sep", "oct", "nov", "dic" ].getD (m - 1) "???"

/-- The trend bucket key of `aiAnalysis.js` line 462: day of month and
short month name — the year is not part of the key. -/
def trendKey (d : DateYMD) : String :=
  toString d.day ++ " " ++ esMonthShort d.month

/-- Insert one conformity value into the insertion-ordered bucket list,
mirroring the accumulation of sum and count per key in the `Map`. -/
def addToTrend (buckets : List (String × ℚ × Nat)) (k : String) (v : ℚ) :
    List (String × ℚ × Nat) :=
  match buckets with
  | [] => [(k, v, 1)]
  | (k0, s0, c0) :: rest =>
      if k0 = k then (k0, s0 + v, c0 + 1) :: rest
      else (k0, s0, c0) :: addToTrend rest k v

/-- Fold all records into trend buckets, in list order. -/
def buildTrend (records : List HistRecord) : List (String × ℚ × Nat) :=
  records.foldl (fun bs r => addToTrend bs (trendKey r.date) (conformityOf r)) []

/-- Date-ascending comparison of records. -/
def dateLE (a b : HistRecord) : Prop := a.date.serial ≤ b.date.serial

instance : DecidableRel dateLE := fun a b => by
  unfold dateLE; infer_instance

instance : IsTotal HistRecord dateLE :=
  ⟨fun a b => Nat.le_total a.date.serial b.date.serial⟩

instance : IsTrans HistRecord dateLE :=
  ⟨fun _ _ _ hab hbc => Nat.le_trans hab hbc⟩

/-- The stable date-ascending sort `[...data].sort((a, b) => dateA - dateB)`. -/
def sortByDate (records : List HistRecord) : List HistRecord :=
  records.insertionSort dateLE

/-- KPI block of the dashboard summary. -/
structure Kpis where
  conformidad : ℚ
  rechazados : Nat
  tiempo : String
  completadas : Nat
  deriving Repr, DecidableEq

/-- Trend chart series. -/
structure TrendChart where
  labels : List String
  data : List ℚ
  deriving Repr, DecidableEq

/-- Breakdown chart series. -/
structure BreakdownChart where
  labels : List String
  data : List Nat
  deriving Repr, DecidableEq

/-- Both chart series. -/
structure ChartData where
  trend : TrendChart
  breakdown : BreakdownChart
  deriving Repr, DecidableEq

/-- The full result of `processData`. -/
structure ProcessedData where
  kpis : Kpis
  charts : ChartData
  deriving Repr, DecidableEq

/-- Count the records carrying a given dashboard status. -/
def statusCount (records : List HistRecord) (st : BatchStatus) : Nat :=
  (records.filter (fun r => decide (determineBatchStatus r = st))).length

/-- `processData` (`aiAnalysis.js` lines 400-507) for the `Global`
filter (the only filter the source implements): early return of the
all-zero summary on empty input, otherwise KPIs, the day/month trend
series over the date-sorted records, and the three-way breakdown. -/
def processData (data : List HistRecord) : ProcessedData :=
  let totalAudits := data.length
  if totalAudits = 0 then
    { kpis := { conformidad := 0, rechazados := 0, tiempo := "N/A",
                completadas := 0 }
      charts := { trend := { labels := [], data := [] }
                  breakdown := { labels := [], data := [] } } }
  else
    let totalConformitySum := (data.map conformityOf).sum
    let rejectedCount := statusCount data .descarte
    let avgConformity := round1 (totalConformitySum / (totalAudits : ℚ))
    let buckets := buildTrend (sortByDate data)
    { kpis := { conformidad := avgConformity, rechazados := rejectedCount,
                tiempo := "N/A", completadas := totalAudits }
      charts :=
        { trend := { labels := buckets.map (fun p => p.1)
                     data := buckets.map (fun p => round1 (p.2.1 / (p.2.2 : ℚ))) }
          breakdown := { labels := ["Descarte", "Hallazgo", "Conforme"]
                         data := [statusCount data .descarte,
                                  statusCount data .hallazgo,
                                  statusCount data .conforme] } } }

/-! ## Scenario constants and claim-side definitions -/

/-- Modelled from the claim wording, for comparison with the source
classifier: the category assigned to an already-normalised status. -/
def claimedCategory (normalized : String) : FruitCategory :=
  if normalized ∈ ["OK", "CONFORME"] then .conforme
  else if normalized ∈ ["ALERTA", "HALLAZGO"] then .hallazgoMenor
  else if normalized ∈ ["DESCARTE", "NO_ADMITIDA", "RECHAZADO"] then .noAdmitida
  else .conforme

/-- Concrete classifier output with 20% not admitted. -/
def cfDemo : CalidadFruta :=
  { total := 10, conformes := 8, hallazgosMenores := 0, noAdmitidas := 2,
    porcentajeNoAdmitida := 20, porcentajeConformes := 80,
    porcentajeHallazgos := 0 }

/-- Freshly deployed contract with thresholds 800 / 5 / 21. -/
def c3start : ContractState := deployContract "admin" 800 5 21

/-- The lot `L1` as stored after registration, with a given temperature. -/
def c3lot (temp : Nat) : BatchData :=
  { loteId := "L1", variety := "Hass", registeredBy := "farmer",
    initialWeight := 100, finalWeightReceived := 0, avgTemperature := temp,
    audit := { isCompliant := false, reason := "Pendiente de Auditoria",
               timestamp := 10 } }

/-- State after registering `L1`. -/
def c3s1 : ContractState := setBatch c3start "L1" (c3lot 0)

/-- State after recording transport temperature 750 for `L1`. -/
def c3s2 : ContractState := setBatch c3s1 "L1" (c3lot 750)

/-- State after overwriting the transport temperature with 900. -/
def c3s3 : ContractState := setBatch c3s2 "L1" (c3lot 900)

/-- State after `updateReceptionData c3s2 "L1" 96 20`. -/
def c3sR : ContractState :=
  evaluateBatch (setBatch c3s2 "L1" { c3lot 750 with finalWeightReceived := 96 })
    "L1" 0 96 0 20

/-- The key / conformity pair a record contributes to the trend fold. -/
def recPair (r : HistRecord) : String × ℚ := (trendKey r.date, conformityOf r)

/-- First-occurrence deduplication: keeps the first copy of every key,
in order of first appearance. -/
def firstDedup : List String → List String
  | [] => []
  | a :: l => a :: (firstDedup l).filter (fun b => decide (b ≠ a))

/-- Specification of one trend bucket relative to the processed
key/value pairs: its sum and count are exactly those of the pairs
carrying its key. -/
def entrySpec (pairs : List (String × ℚ)) (p : String × ℚ × Nat) : Prop :=
  p.2.1 = ((pairs.filter fun q => decide (q.1 = p.1)).map Prod.snd).sum ∧
  p.2.2 = (pairs.filter fun q => decide (q.1 = p.1)).length

/-- Record dated 2024-03-05 with the demo classifier output. -/
def c8r1 : HistRecord :=
  { date := { year := 2024, month := 3, day := 5 },
    calidadFruta := some cfDemo, simResult := none }

/-- Record dated 2025-03-05 with the demo classifier output. -/
def c8r2 : HistRecord :=
  { date := { year := 2025, month := 3, day := 5 },
    calidadFruta := some cfDemo, simResult := none }

/-! ## Theorems -/

/-- C1: for every lot and every threshold registry, if the resolved
transport temperature exceeds the maximum, `evaluateBatch` produces a
non-compliant result whose reason is the temperature reason — never the
weight-deviation or dry-matter reason, even when those checks would also
fail on the same inputs (first failing check wins). -/
theorem c1_temperature_short_circuit
    (maxTemp maxWeightDev minDryMatter : Nat) (batch : BatchData)
    (tIn wIn dIn : Nat)
    (h : (if tIn ≠ 0 then tIn else batch.avgTemperature) > maxTemp) :
    (runAudit maxTemp maxWeightDev minDryMatter batch tIn wIn dIn).1 = false ∧
    (runAudit maxTemp maxWeightDev minDryMatter batch tIn wIn dIn).2 = reasonTemp ∧
    reasonTemp ≠ reasonWeight ∧ reasonTemp ≠ reasonDryMatter := by
  refine ⟨?_, ?_, by decide, by decide⟩ <;>
  · unfold runAudit
    simp only [h, if_true, if_pos]
    split <;> simp

/-- Witness for C1: a lot whose resolved temperature 810 exceeds the
threshold 800, whose weight deviation (100 → 80) also exceeds 5% and
whose dry matter 10 is below 21, still reports the temperature reason. -/
theorem c1_temperature_short_circuit_witness :
    (if (810 : Nat) ≠ 0 then 810
     else ({ zeroBatch with initialWeight := 100 } : BatchData).avgTemperature) > 800 ∧
    ((runAudit 800 5 21 { zeroBatch with initialWeight := 100 } 810 80 10).1 = false ∧
     (runAudit 800 5 21 { zeroBatch with initialWeight := 100 } 810 80 10).2 = reasonTemp ∧
     reasonTemp ≠ reasonWeight ∧ reasonTemp ≠ reasonDryMatter) :=
  ⟨by decide,
   c1_temperature_short_circuit 800 5 21 { zeroBatch with initialWeight := 100 }
     810 80 10 (by decide)⟩

/-- C2: when the temperature check passes and both weights are positive,
the audit is non-compliant with the weight-deviation reason exactly when
the 2-decimal fixed-point deviation `|initial - final| * 100 * 100 /
initial` exceeds `maxWeightDev * 100`; in particular, with thresholds
(800, 5, 21) and stored temperature 750, initial weight 100 with final
weight 96 is compliant while final weight 90 fails with the
weight-deviation reason. -/
theorem c2_weight_deviation_check
    (maxTemp maxWeightDev minDryMatter : Nat) (batch : BatchData)
    (tIn wIn dIn : Nat)
    (htemp : ¬ (if tIn ≠ 0 then tIn else batch.avgTemperature) > maxTemp)
    (hiw : batch.initialWeight > 0)
    (hfw : (if wIn ≠ 0 then wIn else batch.finalWeightReceived) > 0) :
    (((runAudit maxTemp maxWeightDev minDryMatter batch tIn wIn dIn).1 = false ∧
      (runAudit maxTemp maxWeightDev minDryMatter batch tIn wIn dIn).2 = reasonWeight) ↔
     (Nat.dist batch.initialWeight (if wIn ≠ 0 then wIn else batch.finalWeightReceived))
       * 100 * 100 / batch.initialWeight > maxWeightDev * 100) ∧
    runAudit 800 5 21
      { zeroBatch with initialWeight := 100, avgTemperature := 750 } 0 96 0 =
      (true, reasonConforme) ∧
    runAudit 800 5 21
      { zeroBatch with initialWeight := 100, avgTemperature := 750 } 0 90 0 =
      (false, reasonWeight) := by
  refine ⟨?_, by decide, by decide⟩
  have hdist : (if batch.initialWeight > (if wIn ≠ 0 then wIn else batch.finalWeightReceived)
      then batch.initialWeight - (if wIn ≠ 0 then wIn else batch.finalWeightReceived)
      else (if wIn ≠ 0 then wIn else batch.finalWeightReceived) - batch.initialWeight)
      = Nat.dist batch.initialWeight (if wIn ≠ 0 then wIn else batch.finalWeightReceived) := by
    rcases Nat.lt_or_ge (if wIn ≠ 0 then wIn else batch.finalWeightReceived)
        batch.initialWeight with hlt | hge
    · rw [if_pos hlt, Nat.dist_eq_sub_of_le_right (Nat.le_of_lt hlt)]
    · rw [if_neg (by omega), Nat.dist_eq_sub_of_le (by omega)]
  have hne1 : reasonDryMatter ≠ reasonWeight := by decide
  have hne2 : reasonConforme ≠ reasonWeight := by decide
  simp only [runAudit, if_neg htemp, if_pos (And.intro hiw hfw), hdist]
  split_ifs with h1 h2 h3 <;> simp_all

/-- Witness for C2: the end-to-end example lot (thresholds 800/5/21,
stored temperature 750, initial weight 100, reception input 90). -/
theorem c2_weight_deviation_check_witness :
    (¬ (if (0 : Nat) ≠ 0 then 0
        else ({ zeroBatch with initialWeight := 100, avgTemperature := 750 } :
          BatchData).avgTemperature) > 800) ∧
    (({ zeroBatch with initialWeight := 100, avgTemperature := 750 } :
        BatchData).initialWeight > 0) ∧
    ((if (90 : Nat) ≠ 0 then 90
      else ({ zeroBatch with initialWeight := 100, avgTemperature := 750 } :
        BatchData).finalWeightReceived) > 0) ∧
    ((((runAudit 800 5 21
          { zeroBatch with initialWeight := 100, avgTemperature := 750 } 0 90 0).1 = false ∧
       (runAudit 800 5 21
          { zeroBatch with initialWeight := 100, avgTemperature := 750 } 0 90 0).2 =
         reasonWeight) ↔
      (Nat.dist ({ zeroBatch with initialWeight := 100, avgTemperature := 750 } :
          BatchData).initialWeight
        (if (90 : Nat) ≠ 0 then 90
         else ({ zeroBatch with initialWeight := 100, avgTemperature := 750 } :
           BatchData).finalWeightReceived)) * 100 * 100 /
        ({ zeroBatch with initialWeight := 100, avgTemperature := 750 } :
          BatchData).initialWeight > 5 * 100) ∧
     runAudit 800 5 21
       { zeroBatch with initialWeight := 100, avgTemperature := 750 } 0 96 0 =
       (true, reasonConforme) ∧
     runAudit 800 5 21
       { zeroBatch with initialWeight := 100, avgTemperature := 750 } 0 90 0 =
       (false, reasonWeight)) :=
  ⟨by decide, by decide, by decide,
   c2_weight_deviation_check 800 5 21
     { zeroBatch with initialWeight := 100, avgTemperature := 750 } 0 90 0
     (by decide) (by decide) (by decide)⟩

/-- Mapping lookup after a write at the same key. -/
theorem setBatch_get_self (s : ContractState) (loteId : String) (b : BatchData) :
    (setBatch s loteId b).batches loteId = b := by
  simp [setBatch]

/-- C3 counterexample: overwriting the previously set non-zero
temperature 750 with 900 — a value above the 800 threshold — via
`updateTransportData` leaves the audit byte-for-byte unchanged (still
the stale pending audit), so the update does not re-evaluate the audit
as the claim requires. -/
theorem c3_counterexample_transport_not_reaudited :
    registerBatchInitialData c3start "farmer" "L1" "Hass" 100 10 = Except.ok c3s1 ∧
    updateTransportData c3s1 "L1" 750 = Except.ok c3s2 ∧
    updateTransportData c3s2 "L1" 900 = Except.ok c3s3 ∧
    (c3s2.batches "L1").avgTemperature = 750 ∧
    (c3s3.batches "L1").avgTemperature = 900 ∧
    c3s3.maxTempTransportC = 800 ∧
    (c3s3.batches "L1").audit = (c3s2.batches "L1").audit ∧
    (c3s3.batches "L1").audit =
      { isCompliant := false, reason := "Pendiente de Auditoria", timestamp := 10 } ∧
    (c3s3.batches "L1").audit.reason ≠ reasonTemp :=
  ⟨rfl, rfl, rfl, by decide, by decide, rfl, by decide, by decide, by decide⟩

/-- C3 (amended): only reception-data updates re-evaluate the audit:
`updateReceptionData` always recomputes the `AuditResult` from the
freshly stored final weight and stamps it with the evaluation time,
while `updateTransportData` stores the new temperature — even when it
overwrites a previously set non-zero value — and leaves the audit
unchanged. -/
theorem c3_amended_reaudit_only_on_reception :
    (∀ (s : ContractState) (loteId : String) (w now : Nat) (s2 : ContractState),
      updateReceptionData s loteId w now = Except.ok s2 →
      (s2.batches loteId).finalWeightReceived = w ∧
      (s2.batches loteId).audit =
        { isCompliant := (runAudit s.maxTempTransportC s.maxWeightDeviationPct
            s.minDryMatterPct { s.batches loteId with finalWeightReceived := w }
            0 w 0).1,
          reason := (runAudit s.maxTempTransportC s.maxWeightDeviationPct
            s.minDryMatterPct { s.batches loteId with finalWeightReceived := w }
            0 w 0).2,
          timestamp := now }) ∧
    (∀ (s : ContractState) (loteId : String) (t : Nat) (s2 : ContractState),
      updateTransportData s loteId t = Except.ok s2 →
      (s2.batches loteId).avgTemperature = t ∧
      (s2.batches loteId).audit = (s.batches loteId).audit) := by
  constructor
  · intro s loteId w now s2 h
    unfold updateReceptionData at h
    split at h
    · simp only [Except.ok.injEq] at h
      subst h
      simp [evaluateBatch, setBatch]
    · exact absurd h (by simp)
  · intro s loteId t s2 h
    unfold updateTransportData at h
    split at h
    · simp only [Except.ok.injEq] at h
      subst h
      simp [setBatch_get_self]
    · exact absurd h (by simp)

/-- Witness for the amended C3: on the example lot, reception with final
weight 96 at time 20 recomputes the audit (compliant, stamped 20), while
overwriting the temperature leaves the stale audit untouched. -/
theorem c3_amended_reaudit_only_on_reception_witness :
    (updateReceptionData c3s2 "L1" 96 20 = Except.ok c3sR ∧
     (c3sR.batches "L1").finalWeightReceived = 96 ∧
     (c3sR.batches "L1").audit =
       { isCompliant := true, reason := reasonConforme, timestamp := 20 }) ∧
    (updateTransportData c3s2 "L1" 900 = Except.ok c3s3 ∧
     (c3s3.batches "L1").avgTemperature = 900 ∧
     (c3s3.batches "L1").audit = (c3s2.batches "L1").audit) := by
  have h1 := c3_amended_reaudit_only_on_reception.1 c3s2 "L1" 96 20 c3sR rfl
  have h2 := c3_amended_reaudit_only_on_reception.2 c3s2 "L1" 900 c3s3 rfl
  refine ⟨⟨rfl, h1.1, ?_⟩, ⟨rfl, h2.1, h2.2⟩⟩
  rw [h1.2]
  decide

/-- C10: `evaluateBatch` performs no lot-existence check.  On a lot id
that was never registered (the mapping still holds the all-zero struct)
it is a total operation — the source has no `require` — that stores a
full `AuditResult` computed from the zero-valued stored fields and the
call inputs, stamped with the (positive) block timestamp; as a
consequence a later `registerBatchInitialData` for that same id is
rejected as a duplicate. -/
theorem c10_evaluate_unregistered_blocks_registration
    (s : ContractState) (loteId : String) (tIn wIn dIn now : Nat)
    (sender variety : String) (w now2 : Nat)
    (hzero : s.batches loteId = zeroBatch) (hnow : 0 < now) :
    ((evaluateBatch s loteId tIn wIn dIn now).batches loteId =
      { zeroBatch with audit :=
        { isCompliant := (runAudit s.maxTempTransportC s.maxWeightDeviationPct
            s.minDryMatterPct zeroBatch tIn wIn dIn).1,
          reason := (runAudit s.maxTempTransportC s.maxWeightDeviationPct
            s.minDryMatterPct zeroBatch tIn wIn dIn).2,
          timestamp := now } }) ∧
    ((evaluateBatch s loteId tIn wIn dIn now).batches loteId).audit.timestamp ≠ 0 ∧
    registerBatchInitialData (evaluateBatch s loteId tIn wIn dIn now)
      sender loteId variety w now2 = Except.error "Lote ya registrado." := by
  have hbatch : (evaluateBatch s loteId tIn wIn dIn now).batches loteId =
      { zeroBatch with audit :=
        { isCompliant := (runAudit s.maxTempTransportC s.maxWeightDeviationPct
            s.minDryMatterPct zeroBatch tIn wIn dIn).1,
          reason := (runAudit s.maxTempTransportC s.maxWeightDeviationPct
            s.minDryMatterPct zeroBatch tIn wIn dIn).2,
          timestamp := now } } := by
    simp [evaluateBatch, setBatch, hzero]
  refine ⟨hbatch, ?_, ?_⟩
  · rw [hbatch]
    exact Nat.pos_iff_ne_zero.mp hnow
  · unfold registerBatchInitialData
    rw [hbatch]
    simp [Nat.pos_iff_ne_zero.mp hnow]

/-- Witness for C10: on a fresh deployment, auditing the never-registered
id `GHOST` succeeds, stores a pending-free audit stamped 7, and the
subsequent genuine registration of `GHOST` is rejected as a duplicate. -/
theorem c10_evaluate_unregistered_blocks_registration_witness :
    ((deployContract "admin" 800 5 21).batches "GHOST" = zeroBatch ∧ 0 < 7) ∧
    (((evaluateBatch (deployContract "admin" 800 5 21) "GHOST" 0 0 0 7).batches "GHOST" =
      { zeroBatch with audit :=
        { isCompliant := (runAudit (deployContract "admin" 800 5 21).maxTempTransportC
            (deployContract "admin" 800 5 21).maxWeightDeviationPct
            (deployContract "admin" 800 5 21).minDryMatterPct zeroBatch 0 0 0).1,
          reason := (runAudit (deployContract "admin" 800 5 21).maxTempTransportC
            (deployContract "admin" 800 5 21).maxWeightDeviationPct
            (deployContract "admin" 800 5 21).minDryMatterPct zeroBatch 0 0 0).2,
          timestamp := 7 } }) ∧
    ((evaluateBatch (deployContract "admin" 800 5 21) "GHOST" 0 0 0 7).batches "GHOST").audit.timestamp ≠ 0 ∧
    registerBatchInitialData (evaluateBatch (deployContract "admin" 800 5 21) "GHOST" 0 0 0 7)
      "farmer" "GHOST" "Hass" 100 9 = Except.error "Lote ya registrado.") :=
  ⟨⟨rfl, by decide⟩,
   c10_evaluate_unregistered_blocks_registration
     (deployContract "admin" 800 5 21) "GHOST" 0 0 0 7 "farmer" "Hass" 100 9
     rfl (by decide)⟩

/-- C4: every per-unit status is assigned exactly one category, chosen
purely by its case-insensitively normalised form: OK and CONFORME are
conformant, ALERTA and HALLAZGO are minor findings, DESCARTE,
NO_ADMITIDA and RECHAZADO are not admitted, and anything unrecognised
defaults to conformant. -/
theorem c4_classifier_category_mapping (status : String) :
    classifyStatus status = claimedCategory (jsToUpper (jsTrim status)) ∧
    ∀ status2 : String, jsToUpper (jsTrim status2) = jsToUpper (jsTrim status) →
      classifyStatus status2 = classifyStatus status := by
  constructor
  · simp only [classifyStatus, claimedCategory, List.mem_cons,
      List.mem_singleton, List.not_mem_nil, or_false]
  · intro status2 h
    simp only [classifyStatus]
    rw [h]

/-- Witness for C4: the lower-case, padded status cell is normalised and
classified like its canonical upper-case form. -/
theorem c4_classifier_category_mapping_witness :
    (classifyStatus "descarte " =
      claimedCategory (jsToUpper (jsTrim "descarte ")) ∧
     jsToUpper (jsTrim "DESCARTE") = jsToUpper (jsTrim "descarte ") ∧
     classifyStatus "DESCARTE" = classifyStatus "descarte ") :=
  ⟨(c4_classifier_category_mapping "descarte ").1, by decide,
   (c4_classifier_category_mapping "descarte ").2 "DESCARTE" (by decide)⟩

/-- One counting step keeps the category counters summing to the total. -/
theorem countStep_preserves_sum (acc : FruitCounts) (st : String)
    (h : acc.frutasConformes + acc.frutasConHallazgos + acc.frutasNoAdmitidas =
      acc.totalFrutas) :
    (countStep acc st).frutasConformes + (countStep acc st).frutasConHallazgos +
      (countStep acc st).frutasNoAdmitidas = (countStep acc st).totalFrutas := by
  unfold countStep
  cases classifyStatus st <;> simp <;> omega

/-- Folding the counting step preserves the sum invariant. -/
theorem foldl_countStep_sum :
    ∀ (l : List String) (acc : FruitCounts),
      acc.frutasConformes + acc.frutasConHallazgos + acc.frutasNoAdmitidas =
        acc.totalFrutas →
      (l.foldl countStep acc).frutasConformes +
        (l.foldl countStep acc).frutasConHallazgos +
        (l.foldl countStep acc).frutasNoAdmitidas =
        (l.foldl countStep acc).totalFrutas
  | [], _, h => h
  | st :: rest, acc, h =>
      foldl_countStep_sum rest (countStep acc st) (countStep_preserves_sum acc st h)

/-- The counting loop keeps the category counters summing to the total. -/
theorem countFruit_sum (statuses : List String) :
    (countFruit statuses).frutasConformes + (countFruit statuses).frutasConHallazgos +
      (countFruit statuses).frutasNoAdmitidas = (countFruit statuses).totalFrutas :=
  foldl_countStep_sum statuses ⟨0, 0, 0, 0⟩ rfl

/-- The classifier output, fallback included, has a positive total and
counters summing to the total. -/
theorem classifyUpload_sum (statuses : List String) :
    (classifyUpload statuses).frutasConformes +
      (classifyUpload statuses).frutasConHallazgos +
      (classifyUpload statuses).frutasNoAdmitidas =
      (classifyUpload statuses).totalFrutas ∧
    0 < (classifyUpload statuses).totalFrutas := by
  simp only [classifyUpload]
  split
  · simp
  · next h => exact ⟨countFruit_sum statuses, by omega⟩

/-- Rounding at two decimals moves a rational by at most 1/200. -/
theorem abs_round2_sub (q : ℚ) : |round2 q - q| ≤ 1 / 200 := by
  have h := abs_sub_round (q * 100)
  rw [abs_sub_comm] at h
  unfold round2
  have : (round (q * 100) : ℚ) / 100 - q = ((round (q * 100) : ℚ) - q * 100) / 100 := by
    ring
  rw [this, abs_div]
  rw [show |(100 : ℚ)| = 100 by norm_num]
  linarith

/-- C5: every stored `QualityBreakdown` has its three category counts
summing to the total, and its three 2-decimal percentages sum to 100
within the 0.1 rounding epsilon. -/
theorem c5_breakdown_invariant (statuses : List String) :
    (mkCalidadFruta statuses).conformes + (mkCalidadFruta statuses).hallazgosMenores +
      (mkCalidadFruta statuses).noAdmitidas = (mkCalidadFruta statuses).total ∧
    |(mkCalidadFruta statuses).porcentajeConformes +
      (mkCalidadFruta statuses).porcentajeHallazgos +
      (mkCalidadFruta statuses).porcentajeNoAdmitida - 100| ≤ 1 / 10 := by
  obtain ⟨hsum, hpos⟩ := classifyUpload_sum statuses
  refine ⟨hsum, ?_⟩
  set c := classifyUpload statuses with hc
  have htotal : ((c.totalFrutas : ℚ)) ≠ 0 := by
    exact_mod_cast Nat.pos_iff_ne_zero.mp hpos
  set p1 : ℚ := (c.frutasConformes : ℚ) / (c.totalFrutas : ℚ) * 100 with hp1
  set p2 : ℚ := (c.frutasConHallazgos : ℚ) / (c.totalFrutas : ℚ) * 100 with hp2
  set p3 : ℚ := (c.frutasNoAdmitidas : ℚ) / (c.totalFrutas : ℚ) * 100 with hp3
  have hexact : p1 + p2 + p3 = 100 := by
    rw [hp1, hp2, hp3]
    have hcast : (c.frutasConformes : ℚ) + (c.frutasConHallazgos : ℚ) +
        (c.frutasNoAdmitidas : ℚ) = (c.totalFrutas : ℚ) := by
      exact_mod_cast hsum
    field_simp
    linarith
  have h1 := abs_round2_sub p1
  have h2 := abs_round2_sub p2
  have h3 := abs_round2_sub p3
  have hformula : (mkCalidadFruta statuses).porcentajeConformes +
      (mkCalidadFruta statuses).porcentajeHallazgos +
      (mkCalidadFruta statuses).porcentajeNoAdmitida =
      round2 p1 + round2 p2 + round2 p3 := by
    simp only [mkCalidadFruta, ← hc, hp1, hp2, hp3]
  rw [hformula]
  have hsplit : round2 p1 + round2 p2 + round2 p3 - 100 =
      (round2 p1 - p1) + (round2 p2 - p2) + (round2 p3 - p3) := by
    rw [← hexact]; ring
  rw [hsplit]
  calc |(round2 p1 - p1) + (round2 p2 - p2) + (round2 p3 - p3)|
      ≤ |round2 p1 - p1| + |round2 p2 - p2| + |round2 p3 - p3| := by
        exact abs_add_three _ _ _
    _ ≤ 1 / 200 + 1 / 200 + 1 / 200 := by linarith
    _ ≤ 1 / 10 := by norm_num

/-- C6: with zero parseable data rows the stored breakdown is the single
synthetic conformant unit — total 1, conformant 1, the other counts 0,
percentages 100 / 0 / 0 — and no division by zero occurs. -/
theorem c6_empty_upload_fallback :
    mkCalidadFruta [] =
      { total := 1, conformes := 1, hallazgosMenores := 0, noAdmitidas := 0,
        porcentajeNoAdmitida := 0, porcentajeConformes := 100,
        porcentajeHallazgos := 0 } := by
  simp only [mkCalidadFruta, classifyUpload, countFruit, List.foldl_nil,
    CalidadFruta.mk.injEq]
  norm_num [round2, round_eq]

/-- C7: the dashboard status of a lot is derived solely from the
classifier output: no output means Pending; more than 15% not admitted
means Discard; otherwise any positive finding or not-admitted percentage
means Finding; otherwise Compliant.  Records agreeing on `calidadFruta`
always get the same status, whatever the rest of the record holds. -/
theorem c7_status_derivation (record : HistRecord) :
    (record.calidadFruta = none → determineBatchStatus record = .pendiente) ∧
    (∀ cf : CalidadFruta, record.calidadFruta = some cf →
      (cf.porcentajeNoAdmitida > 15 → determineBatchStatus record = .descarte) ∧
      (¬ cf.porcentajeNoAdmitida > 15 →
        (cf.porcentajeHallazgos > 0 ∨ cf.porcentajeNoAdmitida > 0) →
        determineBatchStatus record = .hallazgo) ∧
      (¬ cf.porcentajeNoAdmitida > 15 →
        ¬ (cf.porcentajeHallazgos > 0 ∨ cf.porcentajeNoAdmitida > 0) →
        determineBatchStatus record = .conforme)) ∧
    (∀ record2 : HistRecord, record2.calidadFruta = record.calidadFruta →
      determineBatchStatus record2 = determineBatchStatus record) := by
  refine ⟨?_, ?_, ?_⟩
  · intro h
    simp [determineBatchStatus, h]
  · intro cf h
    refine ⟨?_, ?_, ?_⟩
    · intro h1
      simp [determineBatchStatus, h, h1]
    · intro h1 h2
      simp [determineBatchStatus, h, h1, h2]
    · intro h1 h2
      simp [determineBatchStatus, h, h1, h2]
  · intro record2 h
    unfold determineBatchStatus
    rw [h]

/-- Witness for C7: a record whose breakdown has 20% not admitted is
Discard, and the same breakdown with a different simulation result gets
the same status. -/
theorem c7_status_derivation_witness :
    (({ date := ⟨2024, 3, 5⟩, calidadFruta := some cfDemo,
        simResult := some "x" } : HistRecord).calidadFruta = some cfDemo ∧
     cfDemo.porcentajeNoAdmitida > 15) ∧
    determineBatchStatus
      { date := ⟨2024, 3, 5⟩, calidadFruta := some cfDemo,
        simResult := some "x" } = .descarte ∧
    (({ date := ⟨2025, 1, 1⟩, calidadFruta := some cfDemo,
        simResult := none } : HistRecord).calidadFruta =
      ({ date := ⟨2024, 3, 5⟩, calidadFruta := some cfDemo,
         simResult := some "x" } : HistRecord).calidadFruta ∧
     determineBatchStatus
       { date := ⟨2025, 1, 1⟩, calidadFruta := some cfDemo, simResult := none } =
       determineBatchStatus
       { date := ⟨2024, 3, 5⟩, calidadFruta := some cfDemo,
         simResult := some "x" }) :=
  ⟨⟨rfl, by norm_num [cfDemo]⟩,
   ((c7_status_derivation _).2.1 cfDemo rfl).1 (by norm_num [cfDemo]),
   rfl,
   (c7_status_derivation _).2.2 _ rfl⟩

/-- C9 counterexample: on the empty collection `processData` returns an
empty breakdown series, not three zero counts for Discard, Finding and
Compliant. -/
theorem c9_counterexample_empty_breakdown :
    (processData []).charts.breakdown.data = [] ∧
    (processData []).charts.breakdown.labels = [] ∧
    ([] : List Nat) ≠ [0, 0, 0] :=
  ⟨rfl, rfl, by decide⟩

/-- C9 (amended): `processData` on zero lots returns zero audited lots,
zero rejected, average conformity 0, an empty trend series and an empty
breakdown series (no per-category zero counts), and being a total
function it never raises a division-by-zero error. -/
theorem c9_amended_empty_summary :
    processData [] =
      { kpis := { conformidad := 0, rechazados := 0, tiempo := "N/A",
                  completadas := 0 }
        charts := { trend := { labels := [], data := [] }
                    breakdown := { labels := [], data := [] } } } := rfl

/-- Membership survives first-occurrence deduplication. -/
theorem mem_firstDedup (a : String) : ∀ l : List String, a ∈ firstDedup l ↔ a ∈ l
  | [] => Iff.rfl
  | b :: l => by
      by_cases hab : a = b
      · subst hab
        simp [firstDedup]
      · simp only [firstDedup, List.mem_cons, List.mem_filter]
        constructor
        · rintro (h | ⟨h, _⟩)
          · exact Or.inl h
          · exact Or.inr ((mem_firstDedup a l).mp h)
        · rintro (h | h)
          · exact Or.inl h
          · exact Or.inr ⟨(mem_firstDedup a l).mpr h, by simpa using hab⟩

/-- First-occurrence deduplication yields a duplicate-free list. -/
theorem firstDedup_nodup : ∀ l : List String, (firstDedup l).Nodup
  | [] => List.nodup_nil
  | a :: l => by
      simp only [firstDedup, List.nodup_cons]
      refine ⟨?_, (firstDedup_nodup l).filter _⟩
      intro hmem
      have := (List.mem_filter.mp hmem).2
      simp at this

/-- Appending one key either leaves the deduplicated list unchanged (key
already present) or appends the key at the end (fresh key). -/
theorem firstDedup_append_singleton (k : String) :
    ∀ l : List String,
      firstDedup (l ++ [k]) =
        if k ∈ l then firstDedup l else firstDedup l ++ [k]
  | [] => by simp [firstDedup]
  | a :: l => by
      have ih := firstDedup_append_singleton k l
      rw [List.cons_append, firstDedup, firstDedup, ih]
      by_cases hka : k = a
      · subst hka
        rw [if_pos (List.mem_cons_self k l)]
        by_cases hkl : k ∈ l
        · rw [if_pos hkl]
        · rw [if_neg hkl, List.filter_append]
          simp
      · by_cases hkl : k ∈ l
        · rw [if_pos hkl, if_pos (List.mem_cons_of_mem a hkl)]
        · rw [if_neg hkl,
            if_neg (by simp only [List.mem_cons, hkl, or_false]; exact hka),
            List.filter_append]
          simp [hka]

/-- Inserting an already-present key leaves the bucket keys unchanged. -/
theorem addToTrend_fst_mem (k : String) (v : ℚ) :
    ∀ bs : List (String × ℚ × Nat), k ∈ bs.map Prod.fst →
      (addToTrend bs k v).map Prod.fst = bs.map Prod.fst
  | [], h => absurd h (by simp)
  | (k0, s0, c0) :: rest, h => by
      by_cases hk : k0 = k
      · simp [addToTrend, hk]
      · have hmem : k ∈ rest.map Prod.fst := by
          rw [List.map_cons] at h
          rcases List.mem_cons.mp h with h1 | h1
          · exact absurd h1.symm hk
          · exact h1
        simp [addToTrend, hk, addToTrend_fst_mem k v rest hmem]

/-- Inserting a fresh key appends a singleton bucket at the end. -/
theorem addToTrend_fst_not_mem (k : String) (v : ℚ) :
    ∀ bs : List (String × ℚ × Nat), k ∉ bs.map Prod.fst →
      addToTrend bs k v = bs ++ [(k, v, 1)]
  | [], _ => rfl
  | (k0, s0, c0) :: rest, h => by
      have hk : ¬ k0 = k := by
        intro he
        exact h (by simp [he])
      have hrest : k ∉ rest.map Prod.fst := by
        intro hmem
        exact h (by simp [hmem])
      simp [addToTrend, hk, addToTrend_fst_not_mem k v rest hrest]

/-- When the inserted key is already present (keys duplicate-free), each
resulting bucket is either an untouched bucket with a different key, or
the unique bucket of that key with the value added and the count bumped. -/
theorem addToTrend_mem_update (k : String) (v : ℚ) :
    ∀ bs : List (String × ℚ × Nat), (bs.map Prod.fst).Nodup →
      k ∈ bs.map Prod.fst →
      ∀ p ∈ addToTrend bs k v,
        (p ∈ bs ∧ p.1 ≠ k) ∨
        ∃ s0 c0, (k, s0, c0) ∈ bs ∧ p = (k, s0 + v, c0 + 1)
  | [], _, h, _, _ => absurd h (by simp)
  | (k0, s0, c0) :: rest, hnodup, h, p, hp => by
      by_cases hk : k0 = k
      · subst hk
        rw [addToTrend, if_pos rfl] at hp
        rcases List.mem_cons.mp hp with h1 | h1
        · exact Or.inr ⟨s0, c0, List.mem_cons_self _ _, h1⟩
        · refine Or.inl ⟨List.mem_cons_of_mem _ h1, ?_⟩
          rw [List.map_cons] at hnodup
          have hk0 : k0 ∉ rest.map Prod.fst := (List.nodup_cons.mp hnodup).1
          intro he
          exact hk0 (he ▸ List.mem_map_of_mem Prod.fst h1)
      · rw [addToTrend, if_neg hk] at hp
        rw [List.map_cons] at hnodup h
        have hmem : k ∈ rest.map Prod.fst := by
          rcases List.mem_cons.mp h with h1 | h1
          · exact absurd h1.symm hk
          · exact h1
        rcases List.mem_cons.mp hp with h1 | h1
        · subst h1
          exact Or.inl ⟨List.mem_cons_self _ _, fun he => hk he⟩
        · rcases addToTrend_mem_update k v rest
            (List.nodup_cons.mp hnodup).2 hmem p h1 with
            h2 | ⟨s1, c1, h2, h3⟩
          · exact Or.inl ⟨List.mem_cons_of_mem _ h2.1, h2.2⟩
          · exact Or.inr ⟨s1, c1, List.mem_cons_of_mem _ h2, h3⟩

/-- One insertion preserves the bucket specification. -/
theorem addToTrend_entrySpec (bs : List (String × ℚ × Nat))
    (done : List (String × ℚ)) (k : String) (v : ℚ)
    (hnodup : (bs.map Prod.fst).Nodup)
    (hkeys : ∀ x : String, x ∈ bs.map Prod.fst ↔ x ∈ done.map Prod.fst)
    (hspec : ∀ p ∈ bs, entrySpec done p) :
    ∀ p ∈ addToTrend bs k v, entrySpec (done ++ [(k, v)]) p := by
  have hfilter_ne : ∀ key : String, key ≠ k →
      (done ++ [(k, v)]).filter (fun q => decide (q.1 = key)) =
      done.filter (fun q => decide (q.1 = key)) := by
    intro key hne
    rw [List.filter_append]
    have : ([(k, v)].filter fun q => decide (q.1 = key)) = [] := by
      simp [Ne.symm hne]
    rw [this, List.append_nil]
  have hfilter_eq :
      (done ++ [(k, v)]).filter (fun q => decide (q.1 = k)) =
      (done.filter fun q => decide (q.1 = k)) ++ [(k, v)] := by
    rw [List.filter_append]
    simp
  intro p hp
  by_cases hk : k ∈ bs.map Prod.fst
  · rcases addToTrend_mem_update k v bs hnodup hk p hp with
      ⟨hpbs, hpne⟩ | ⟨s0, c0, hmem, hpeq⟩
    · have hold := hspec p hpbs
      unfold entrySpec at hold ⊢
      rw [hfilter_ne p.1 hpne]
      exact hold
    · have hold := hspec (k, s0, c0) hmem
      unfold entrySpec at hold ⊢
      subst hpeq
      constructor
      · simp only [hfilter_eq, List.map_append, List.sum_append]
        simp only [List.map_cons, List.map_nil, List.sum_cons, List.sum_nil,
          add_zero]
        exact congrArg (· + v) hold.1
      · simp only [hfilter_eq, List.length_append, List.length_singleton]
        exact congrArg (· + 1) hold.2
  · rw [addToTrend_fst_not_mem k v bs hk] at hp
    rcases List.mem_append.mp hp with h1 | h1
    · have hpne : p.1 ≠ k := by
        intro he
        exact hk (he ▸ List.mem_map_of_mem Prod.fst h1)
      have hold := hspec p h1
      unfold entrySpec at hold ⊢
      rw [hfilter_ne p.1 hpne]
      exact hold
    · have hpeq : p = (k, v, 1) := by simpa using h1
      subst hpeq
      have hkdone : k ∉ done.map Prod.fst := fun hm => hk ((hkeys k).mpr hm)
      have hempty : (done.filter fun q => decide (q.1 = k)) = [] := by
        rw [List.filter_eq_nil_iff]
        intro q hq
        simp only [decide_eq_true_eq]
        intro he
        exact hkdone (he ▸ List.mem_map_of_mem Prod.fst hq)
      unfold entrySpec
      rw [hfilter_eq, hempty]
      simp

/-- Folding a list of key/value pairs into the buckets: the bucket keys
are the first-occurrence deduplication of all processed keys, and every
bucket satisfies the sum/count specification. -/
theorem trendFold_spec :
    ∀ (pairs : List (String × ℚ)) (bs : List (String × ℚ × Nat))
      (done : List (String × ℚ)),
      bs.map Prod.fst = firstDedup (done.map Prod.fst) →
      (∀ p ∈ bs, entrySpec done p) →
      ((pairs.foldl (fun acc q => addToTrend acc q.1 q.2) bs).map Prod.fst =
        firstDedup ((done ++ pairs).map Prod.fst)) ∧
      (∀ p ∈ pairs.foldl (fun acc q => addToTrend acc q.1 q.2) bs,
        entrySpec (done ++ pairs) p)
  | [], bs, done, hkeys, hspec => by
      rw [List.foldl_nil, List.append_nil]
      exact ⟨hkeys, hspec⟩
  | q :: rest, bs, done, hkeys, hspec => by
      have hnodup : (bs.map Prod.fst).Nodup := by
        rw [hkeys]; exact firstDedup_nodup _
      have hmemiff : ∀ x : String, x ∈ bs.map Prod.fst ↔ x ∈ done.map Prod.fst := by
        intro x
        rw [hkeys, mem_firstDedup]
      have hkeys2 : (addToTrend bs q.1 q.2).map Prod.fst =
          firstDedup ((done ++ [q]).map Prod.fst) := by
        rw [List.map_append]
        show _ = firstDedup (done.map Prod.fst ++ [q.1])
        rw [firstDedup_append_singleton]
        by_cases hq : q.1 ∈ done.map Prod.fst
        · rw [if_pos hq, ← hkeys,
            addToTrend_fst_mem q.1 q.2 bs ((hmemiff q.1).mpr hq)]
        · rw [if_neg hq, ← hkeys,
            addToTrend_fst_not_mem q.1 q.2 bs (fun hm => hq ((hmemiff q.1).mp hm)),
            List.map_append]
          simp
      have hspec2 : ∀ p ∈ addToTrend bs q.1 q.2, entrySpec (done ++ [q]) p :=
        addToTrend_entrySpec bs done q.1 q.2 hnodup hmemiff hspec
      have hrec := trendFold_spec rest (addToTrend bs q.1 q.2) (done ++ [q])
        hkeys2 hspec2
      rw [List.append_assoc] at hrec
      simpa using hrec

/-- The trend fold over records is the pair fold over their key/value
projections. -/
theorem buildTrend_eq (records : List HistRecord) :
    buildTrend records =
      (records.map recPair).foldl (fun acc q => addToTrend acc q.1 q.2) [] := by
  rw [buildTrend, List.foldl_map]
  rfl

/-- C8 counterexample: the trend key omits the year (and is the
locale-dependent es-ES label), so two lots of different calendar days —
2024-03-05 and 2025-03-05 — collapse into the one bucket `5 mar`
instead of getting one bucket per calendar day. -/
theorem c8_counterexample_year_collision :
    c8r1.date ≠ c8r2.date ∧
    c8r1.date.year = 2024 ∧ c8r2.date.year = 2025 ∧
    (processData [c8r1, c8r2]).charts.trend.labels = ["5 mar"] :=
  ⟨by decide, rfl, rfl, rfl⟩

/-- C8 (amended): for every non-empty record collection the trend series
groups lots by the day-of-month / month key (year ignored, rendered as
the es-ES short label): the bucket labels are the first occurrences of
the keys of the date-ascending sorted records, each bucket carries the
sum and count — hence the mean — of the conformity percentages of
exactly the records bearing its key, every bucket is non-empty, the
sorted list is a permutation of the input sorted ascending by date, and
records sharing day and month always share a key. -/
theorem c8_amended_trend_series (rs : List HistRecord) (h : rs ≠ []) :
    (processData rs).charts.trend.labels =
      firstDedup ((sortByDate rs).map (fun r => trendKey r.date)) ∧
    (processData rs).charts.trend.data =
      (buildTrend (sortByDate rs)).map (fun p => round1 (p.2.1 / (p.2.2 : ℚ))) ∧
    (∀ p ∈ buildTrend (sortByDate rs),
      p.2.1 = (((sortByDate rs).filter
        (fun r => decide (trendKey r.date = p.1))).map conformityOf).sum ∧
      p.2.2 = ((sortByDate rs).filter
        (fun r => decide (trendKey r.date = p.1))).length ∧
      0 < p.2.2) ∧
    List.Perm (sortByDate rs) rs ∧
    List.Sorted dateLE (sortByDate rs) ∧
    (∀ r1 r2 : HistRecord, r1.date.day = r2.date.day →
      r1.date.month = r2.date.month → trendKey r1.date = trendKey r2.date) := by
  have hne : ¬ rs.length = 0 := by
    simpa using fun he => h (List.length_eq_zero.mp he)
  have hmain := trendFold_spec ((sortByDate rs).map recPair) [] [] rfl
    (by intro p hp; simp at hp)
  rw [List.nil_append, ← buildTrend_eq] at hmain
  have hkeysmap : ((sortByDate rs).map recPair).map Prod.fst =
      (sortByDate rs).map (fun r => trendKey r.date) := by
    rw [List.map_map]
    rfl
  refine ⟨?_, ?_, ?_, ?_, ?_, ?_⟩
  · rw [processData, if_neg hne]
    rw [hkeysmap] at hmain
    exact hmain.1
  · rw [processData, if_neg hne]
  · intro p hp
    have hspec := hmain.2 p hp
    unfold entrySpec at hspec
    rw [List.filter_map] at hspec
    have hfil : ((sortByDate rs).filter
        ((fun q => decide (q.1 = p.1)) ∘ recPair)) =
        ((sortByDate rs).filter (fun r => decide (trendKey r.date = p.1))) := rfl
    rw [hfil, List.map_map, List.length_map] at hspec
    refine ⟨hspec.1, hspec.2, ?_⟩
    have hp1 : p.1 ∈ (buildTrend (sortByDate rs)).map Prod.fst :=
      List.mem_map_of_mem Prod.fst hp
    rw [hmain.1, mem_firstDedup, hkeysmap] at hp1
    obtain ⟨r, hr, hkey⟩ := List.mem_map.mp hp1
    have hrmem : r ∈ (sortByDate rs).filter
        (fun r => decide (trendKey r.date = p.1)) :=
      List.mem_filter.mpr ⟨hr, by simp [hkey]⟩
    rw [hspec.2]
    exact List.length_pos_of_mem hrmem
  · exact List.perm_insertionSort dateLE rs
  · exact List.sorted_insertionSort dateLE rs
  · intro r1 r2 h1 h2
    unfold trendKey
    rw [h1, h2]

/-- Witness for the amended C8, at the two-record collection whose dates
differ only in the year. -/
theorem c8_amended_trend_series_witness :
    ([c8r1, c8r2] ≠ ([] : List HistRecord)) ∧
    ((processData [c8r1, c8r2]).charts.trend.labels =
      firstDedup ((sortByDate [c8r1, c8r2]).map (fun r => trendKey r.date)) ∧
    (processData [c8r1, c8r2]).charts.trend.data =
      (buildTrend (sortByDate [c8r1, c8r2])).map
        (fun p => round1 (p.2.1 / (p.2.2 : ℚ))) ∧
    (∀ p ∈ buildTrend (sortByDate [c8r1, c8r2]),
      p.2.1 = (((sortByDate [c8r1, c8r2]).filter
        (fun r => decide (trendKey r.date = p.1))).map conformityOf).sum ∧
      p.2.2 = ((sortByDate [c8r1, c8r2]).filter
        (fun r => decide (trendKey r.date = p.1))).length ∧
      0 < p.2.2) ∧
    List.Perm (sortByDate [c8r1, c8r2]) [c8r1, c8r2] ∧
    List.Sorted dateLE (sortByDate [c8r1, c8r2]) ∧
    (∀ r1 r2 : HistRecord, r1.date.day = r2.date.day →
      r1.date.month = r2.date.month → trendKey r1.date = trendKey r2.date)) :=
  ⟨by simp, c8_amended_trend_series [c8r1, c8r2] (by simp)⟩

end Trazanet
